import Mathlib

/-!
Verification of the AppSync resolver reconciliation engine
(`src/deployAppSyncResolvers.js`).

The JavaScript source is shallowly embedded: JavaScript values that flow
through the validation and classification code are modelled by `JsVal`
(with JavaScript `typeof` and truthiness semantics), resolver specs by the
`Spec` record of `JsVal` fields, and a reconciliation run by a function
that produces the list of remote-call events issued before the returned
promise settles, together with the error (if any) the run rejects with.
Remote list responses always succeed in the run model; the failure
recovery of the individual remote calls (`updateDataSource` /
`createDataSource` fallbacks, `listResolvers` not-found handling, and the
schema-conflict retry loop) is modelled separately as functions of the
remote outcomes, exactly following the source's catch logic.
-/

mutual

/-- JavaScript values, as far as the reconciliation code inspects them. -/
inductive JsVal where
  | vUndefined : JsVal
  | vNull : JsVal
  | vBool : Bool → JsVal
  | vStr : String → JsVal
  | vNum : Int → JsVal
  | vObj : JsFields → JsVal
deriving DecidableEq

/-- The own enumerable properties of a JavaScript object, in insertion
order. -/
inductive JsFields where
  | nil : JsFields
  | cons : String → JsVal → JsFields → JsFields
deriving DecidableEq

end

/-- The property list of an object, as key/value pairs. -/
def JsFields.toList : JsFields → List (String × JsVal)
  | .nil => []
  | .cons k v r => (k, v) :: r.toList

/-- Build an object property list from key/value pairs. -/
def JsFields.ofList : List (String × JsVal) → JsFields
  | [] => .nil
  | (k, v) :: r => .cons k v (ofList r)

/-- First value stored under a key, if any. -/
def JsFields.lookup (k : String) : JsFields → Option JsVal
  | .nil => none
  | .cons k2 v r => if k2 = k then some v else r.lookup k

/-- Object literal helper. -/
def JsVal.obj (l : List (String × JsVal)) : JsVal := .vObj (JsFields.ofList l)

/-- JavaScript `typeof`; note `typeof null` is `"object"`. -/
def jsTypeof : JsVal → String
  | .vUndefined => "undefined"
  | .vNull => "object"
  | .vBool _ => "boolean"
  | .vStr _ => "string"
  | .vNum _ => "number"
  | .vObj _ => "object"

/-- JavaScript truthiness. -/
def truthy : JsVal → Bool
  | .vUndefined => false
  | .vNull => false
  | .vBool b => b
  | .vStr s => !(s = "")
  | .vNum n => !(n = 0)
  | .vObj _ => true

/-- JavaScript `for (k in v)` enumeration: own enumerable keys with their
values; `null` (and primitives, which never reach the loops here)
enumerate nothing. -/
def jsForIn : JsVal → List (String × JsVal)
  | .vObj fs => fs.toList
  | _ => []

/-- Errors a reconciliation run rejects with, tagged by origin: the
source's explicit validation `throw new Error` sites, JavaScript
`TypeError`s from property access on `null`/`undefined` or string methods
on non-strings, and the missing-data-source configuration error. -/
inductive RunErr where
  | validation : String → RunErr
  | typeError : String → RunErr
  | config : String → RunErr
deriving DecidableEq

/-- JavaScript property access `v[k]`: throws a `TypeError` on `null` or
`undefined`, returns the field (or `undefined`) on objects, `undefined`
on other primitives. -/
def jsGet : JsVal → String → Except RunErr JsVal
  | .vNull, k => .error (.typeError ("Cannot read properties of null (reading " ++ k ++ ")"))
  | .vUndefined, k => .error (.typeError ("Cannot read properties of undefined (reading " ++ k ++ ")"))
  | .vObj fs, k => .ok ((fs.lookup k).getD .vUndefined)
  | _, _ => .ok .vUndefined

/-- The fields of a resolver spec that the engine reads
(`resolvers[type][field]` plus the spread into the per-resolver params). -/
structure Spec where
  name : JsVal := .vUndefined
  lambda : JsVal := .vUndefined
  table : JsVal := .vUndefined
  database : JsVal := .vUndefined
  authorizationConfig : JsVal := .vUndefined
  endpoint : JsVal := .vUndefined
  relationalDatabaseSourceType : JsVal := .vUndefined
  request : JsVal := .vUndefined
  response : JsVal := .vUndefined
deriving DecidableEq

/-- Read a spec out of the object stored at `resolvers[type][field]`
(a non-object value — only `null` can reach this point — has no own
properties, so every field is `undefined`). -/
def specOf (v : JsVal) : Spec :=
  match v with
  | .vObj fs =>
    { name := (fs.lookup "name").getD .vUndefined
      lambda := (fs.lookup "lambda").getD .vUndefined
      table := (fs.lookup "table").getD .vUndefined
      database := (fs.lookup "database").getD .vUndefined
      authorizationConfig := (fs.lookup "authorizationConfig").getD .vUndefined
      endpoint := (fs.lookup "endpoint").getD .vUndefined
      relationalDatabaseSourceType := (fs.lookup "relationalDatabaseSourceType").getD .vUndefined
      request := (fs.lookup "request").getD .vUndefined
      response := (fs.lookup "response").getD .vUndefined }
  | _ => {}

/-- `getDataSourceName`: strip every non-alphanumeric character
(`name.replace(/[^a-z0-9]/gi, '')`). -/
def getDataSourceName (s : String) : String :=
  (s.toList.filter Char.isAlphanum).asString

/-- `getDataSourceName` applied to a JavaScript value: `.replace` is only
defined on strings, anything else throws a `TypeError`. -/
def jsStripName : JsVal → Except RunErr String
  | .vStr s => .ok (getDataSourceName s)
  | _ => .error (.typeError "replace is not a function")

/-- JavaScript `a || b`. -/
def jsOr (a b : JsVal) : JsVal := if truthy a then a else b

/-- The data-source kinds of `deployAppSyncDataSource`. -/
inductive DSKind where
  | awsLambda : DSKind
  | dynamodb : DSKind
  | http : DSKind
  | elasticsearch : DSKind
  | relational : DSKind
deriving DecidableEq

/-- The classification chain of `deployAppSyncDataSource`: the
`if/else if` ladder on `params.lambda`, `params.table`,
`params.authorizationConfig`, `params.endpoint`,
`params.relationalDatabaseSourceType`, in source order. -/
def dataSourceKind (s : Spec) : Option DSKind :=
  if truthy s.lambda then some .awsLambda
  else if truthy s.table then some .dynamodb
  else if truthy s.authorizationConfig then some .http
  else if truthy s.endpoint then some .elasticsearch
  else if truthy s.relationalDatabaseSourceType then some .relational
  else none

/-- The name under which `deployAppSyncDataSource` provisions the data
source (`dataSourceParams.name` in each branch), or the error the call
throws before reaching the remote service: the missing-kind configuration
error, or a `TypeError` from `getDataSourceName` on a non-string. -/
def deployAppSyncDataSourceName (typeName fieldName : String) (s : Spec) :
    Except RunErr JsVal :=
  if truthy s.lambda then (jsStripName s.lambda).map .vStr
  else if truthy s.table then (jsStripName s.table).map .vStr
  else if truthy s.authorizationConfig then .ok s.name
  else if truthy s.endpoint then .ok s.name
  else if truthy s.relationalDatabaseSourceType then
    if truthy s.name then .ok s.name else (jsStripName s.database).map .vStr
  else
    .error (.config ("Please specify a data source for resolver \"" ++
      typeName ++ "." ++ fieldName ++ "\""))

/-- The name `getDataSourcesNames` derives for one desired resolver:
`getDataSourceName(name || lambda || table || database)`. -/
def derivedName (s : Spec) : Except RunErr String :=
  jsStripName (jsOr s.name (jsOr s.lambda (jsOr s.table s.database)))

/-- Remote-service calls observable in one reconciliation run. `Settled`
events mark the completion of the corresponding in-flight call; `Call`
events mark its issuance. `upsertStart` marks the synchronous start of a
`deployAppSyncResolver` task, before it has issued any remote mutating
call (its first await is the role-ARN lookup). -/
inductive Event where
  | listResolversCall : String → Event
  | listDataSourcesCall : Event
  | upsertStart : String → String → Event
  | provisionDataSourceCall : String → String → JsVal → Event
  | upsertResolverCall : String → String → Event
  | upsertSettled : String → String → Event
  | deleteResolverCall : String → String → Event
  | deleteResolverSettled : String → String → Event
  | deleteDataSourceCall : String → Event
deriving DecidableEq

/-- Remote mutating calls: data-source upserts, resolver upserts,
resolver deletes and data-source deletes. List calls, task starts and
settlement markers are not mutations. -/
def Event.isMutating : Event → Bool
  | .provisionDataSourceCall _ _ _ => true
  | .upsertResolverCall _ _ => true
  | .deleteResolverCall _ _ => true
  | .deleteDataSourceCall _ => true
  | _ => false

/-- The remote snapshot `deployAppSyncResolvers` reconciles against:
existing `Query`/`Mutation` resolver field names and existing data-source
names. -/
structure RemoteState where
  queryResolvers : List String
  mutationResolvers : List String
  dataSourceNames : List String
deriving DecidableEq

/-- The params object of `deployAppSyncResolvers`. -/
structure Params where
  apiId : JsVal
  roleName : JsVal
  resolvers : JsVal
deriving DecidableEq

/-- One upsert task: the `(type, field, spec)` triple pushed for
`deployAppSyncResolver`. -/
structure UpsertTask where
  typeName : String
  fieldName : String
  spec : Spec
deriving DecidableEq

/-- Inner loop of the upsert phase for one type: validates
`typeof resolvers[type][field] === 'object'` and collects the tasks, in
field order, stopping at the first validation error (tasks pushed before
the error have already started). -/
def collectFields (t : String) : List (String × JsVal) → List UpsertTask × Option RunErr
  | [] => ([], none)
  | (f, fv) :: rest =>
    if jsTypeof fv ≠ "object" then
      ([], some (.validation ("\"resolvers." ++ t ++ "." ++ f ++ "\" must be an object.")))
    else
      let (ts, e) := collectFields t rest
      (⟨t, f, specOf fv⟩ :: ts, e)

/-- Outer loop of the upsert phase: validates
`typeof resolvers[type] === 'object'` per type and collects all upsert
tasks, in type-then-field order, stopping at the first validation
error. -/
def collectUpserts : List (String × JsVal) → List UpsertTask × Option RunErr
  | [] => ([], none)
  | (t, tv) :: rest =>
    if jsTypeof tv ≠ "object" then
      ([], some (.validation ("\"resolvers." ++ t ++ "\" must be an object.")))
    else
      match collectFields t (jsForIn tv) with
      | (ts, some e) => (ts, some e)
      | (ts, none) =>
        let (ts2, e2) := collectUpserts rest
        (ts ++ ts2, e2)

/-- Stale-resolver scan for one existing type: for each existing field,
evaluate `!resolvers[type] || !resolvers[type][field]` (property access on
a `null` `resolvers` throws a `TypeError`; in that case no delete has been
issued, since every earlier iteration would have thrown the same way) and
keep the `(type, field)` pairs to delete. -/
def staleFields (resolvers : JsVal) (t : String) :
    List String → Except RunErr (List (String × String))
  | [] => .ok []
  | f :: rest => do
    let tv ← jsGet resolvers t
    let keep ←
      if truthy tv then do
        let fv ← jsGet tv f
        pure (truthy fv)
      else
        pure false
    let others ← staleFields resolvers t rest
    pure (if keep then others else (t, f) :: others)

/-- Stale-resolver scan over the snapshot, `Query` then `Mutation` (the
iteration order of `for (type in existingResolvers)`). -/
def staleResolvers (resolvers : JsVal) (remote : RemoteState) :
    Except RunErr (List (String × String)) := do
  let q ← staleFields resolvers "Query" remote.queryResolvers
  let m ← staleFields resolvers "Mutation" remote.mutationResolvers
  pure (q ++ m)

/-- `getDataSourcesNames`: for every desired resolver, derive
`getDataSourceName(name || lambda || table || database)`; these are the
names protected from the data-source delete sweep. -/
def getDataSourcesNames (resolvers : JsVal) : Except RunErr (List String) :=
  goTypes (jsForIn resolvers)
where
  goFields : List (String × JsVal) → Except RunErr (List String)
    | [] => .ok []
    | (_, fv) :: rest => do
      let n ← derivedName (specOf fv)
      let ns ← goFields rest
      pure (n :: ns)
  goTypes : List (String × JsVal) → Except RunErr (List String)
    | [] => .ok []
    | (_, tv) :: rest => do
      let ns ← goFields (jsForIn tv)
      let ns2 ← goTypes rest
      pure (ns ++ ns2)

/-- The remote mutating calls one upsert task issues once it resumes
after the role-ARN lookup: the data-source upsert under the derived name,
then the resolver upsert, then settlement. A task whose spec fails
classification (or name derivation) throws before its first mutating
call and issues nothing. -/
def upsertTaskEvents (task : UpsertTask) : List Event :=
  match deployAppSyncDataSourceName task.typeName task.fieldName task.spec with
  | .ok n =>
    [.provisionDataSourceCall task.typeName task.fieldName n,
     .upsertResolverCall task.typeName task.fieldName,
     .upsertSettled task.typeName task.fieldName]
  | .error _ => []

/-- The first error thrown by an upsert task (canonically in task order),
if any: the run rejects with it at `await Promise.all`. -/
def firstTaskError (tasks : List UpsertTask) : Option RunErr :=
  tasks.findSome? fun task =>
    match deployAppSyncDataSourceName task.typeName task.fieldName task.spec with
    | .ok _ => none
    | .error e => some e

/-- The read-only state-fetch calls issued by `getExistingResolvers` and
`getExistingDataSourcesNames` at the start of every run. -/
def snapshotEvents : List Event :=
  [.listResolversCall "Query", .listResolversCall "Mutation", .listDataSourcesCall]

/-- One attempt of `deployAppSyncResolvers` (the body of its `try`),
against a remote snapshot on which every remote call succeeds: returns
the calls issued before the returned promise settles, in issue order, and
the rejection error if any. Phases, as in the source: top-level
validation; snapshot; upsert loop with nested validation (tasks start,
mutating calls deferred past the first await); stale-resolver delete loop
(deletes issued synchronously); the combined `Promise.all` settle window
in which upsert mutating calls happen; `getDataSourcesNames`; then the
data-source delete sweep over existing names not among the derived
names. -/
def deployAppSyncResolversRun (p : Params) (remote : RemoteState) :
    List Event × Option RunErr :=
  if ¬ truthy p.apiId then ([], some (.validation "Missing \"apiId\" param."))
  else if ¬ truthy p.roleName then ([], some (.validation "Missing \"roleName\" param."))
  else if jsTypeof p.resolvers ≠ "object" then
    ([], some (.validation "\"resolvers\" param is missing or is not an object."))
  else
    let (tasks, verr) := collectUpserts (jsForIn p.resolvers)
    let starts := tasks.map fun task => Event.upsertStart task.typeName task.fieldName
    match verr with
    | some e => (snapshotEvents ++ starts, some e)
    | none =>
      match staleResolvers p.resolvers remote with
      | .error e => (snapshotEvents ++ starts, some e)
      | .ok dels =>
        let delCalls := dels.map fun d => Event.deleteResolverCall d.1 d.2
        let window := tasks.flatMap upsertTaskEvents
        match firstTaskError tasks with
        | some e => (snapshotEvents ++ starts ++ delCalls ++ window, some e)
        | none =>
          let delSettles := dels.map fun d => Event.deleteResolverSettled d.1 d.2
          match getDataSourcesNames p.resolvers with
          | .error e => (snapshotEvents ++ starts ++ delCalls ++ window ++ delSettles, some e)
          | .ok keep =>
            let dsDels := (remote.dataSourceNames.filter fun n => !(keep.contains n)).map
              Event.deleteDataSourceCall
            (snapshotEvents ++ starts ++ delCalls ++ window ++ delSettles ++ dsDels, none)

/-- An error object thrown by the remote service (AWS SDK style):
`code` and `message`. -/
structure AwsErr where
  code : String
  message : String
deriving DecidableEq

/-- `leadsWith n h` holds when the character list `n` is an initial
segment of `h`. -/
def leadsWith : List Char → List Char → Bool
  | [], _ => true
  | _ :: _, [] => false
  | a :: as, b :: bs => a = b && leadsWith as bs

/-- JavaScript `haystack.includes(needle)`: `needle` occurs as a
contiguous substring of `haystack`. -/
def includesStr (haystack needle : String) : Bool :=
  go needle.toList haystack.toList
where
  go (n : List Char) : List Char → Bool
    | [] => leadsWith n []
    | c :: cs => leadsWith n (c :: cs) || go n cs

/-- Result of a data-source upsert call. -/
structure DSResult where
  dataSourceArn : String
  dataSourceName : String
deriving DecidableEq

/-- The remote-call fallback chain of `deployAppSyncDataSource`, as a
function of the outcomes the remote service would give to the initial
`updateDataSource`, the fallback `createDataSource`, and the final
`updateDataSource`: update; on `NotFoundException` create; if the create
fails with a `BadRequestException` whose message includes
`Data source with name`, update again; any other error from either call
propagates. -/
def deployAppSyncDataSourceCalls (upd1 cre upd2 : Except AwsErr DSResult) :
    Except AwsErr DSResult :=
  match upd1 with
  | .ok r => .ok r
  | .error e =>
    if e.code = "NotFoundException" then
      match cre with
      | .ok r => .ok r
      | .error createError =>
        if createError.code = "BadRequestException" &&
            includesStr createError.message "Data source with name" then
          upd2
        else
          .error createError
    else
      .error e

/-- A remote resolver record, as far as `listResolvers` reads it. -/
structure RemoteResolver where
  fieldName : String
deriving DecidableEq

/-- Assignment `resolvers[fieldName] = resolver` on an assoc list:
overwrite if present, append otherwise. -/
def assocSet (acc : List (String × RemoteResolver)) (k : String) (v : RemoteResolver) :
    List (String × RemoteResolver) :=
  if acc.any fun kv => kv.1 = k then
    acc.map fun kv => if kv.1 = k then (k, v) else kv
  else
    acc ++ [(k, v)]

/-- `listResolvers` as a function of the remote outcome: on success,
index the returned resolvers by field name; on `NotFoundException`,
return the empty mapping; any other error propagates. -/
def listResolvers (remote : Except AwsErr (List RemoteResolver)) :
    Except AwsErr (List (String × RemoteResolver)) :=
  match remote with
  | .ok rs => .ok (rs.foldl (fun acc r => assocSet acc r.fieldName r) [])
  | .error e =>
    if e.code = "NotFoundException" then .ok [] else .error e

/-- The schema-lock conflict test of the outer catch:
`e.code === 'ConcurrentModificationException' &&
e.message.includes('Schema is currently being altered')`. -/
def isSchemaConflict (e : AwsErr) : Bool :=
  e.code = "ConcurrentModificationException" &&
    includesStr e.message "Schema is currently being altered"

/-- Result of the retrying `deployAppSyncResolvers` wrapper: success or a
propagated error, counting the `sleep(1000)` pauses taken (= the number
of restarted attempts); `stillRetrying` means every provided attempt
outcome was a schema conflict and the engine is still retrying (the
source recursion has no bound). -/
inductive RetryResult (α : Type) where
  | done : α → Nat → RetryResult α
  | failed : AwsErr → Nat → RetryResult α
  | stillRetrying : RetryResult α
deriving DecidableEq

/-- The outer catch of `deployAppSyncResolvers`: each list element is the
outcome of one full attempt (a fresh snapshot and reconciliation pass).
A schema-lock conflict pauses and recurses on the remaining attempts;
any other error propagates immediately with no retry. -/
def deployAppSyncResolversRetry {α : Type} :
    List (Except AwsErr α) → RetryResult α
  | [] => .stillRetrying
  | .ok v :: _ => .done v 0
  | .error e :: rest =>
    if isSchemaConflict e then
      match deployAppSyncResolversRetry rest with
      | .done v p => .done v (p + 1)
      | .failed e2 p => .failed e2 (p + 1)
      | .stillRetrying => .stillRetrying
    else
      .failed e 0

/-- The per-resolver params object passed to `deployAppSyncResolver`:
the spread spec plus `apiId`, `roleName`, `type`, `field`. -/
structure TaskParams where
  apiId : JsVal
  roleName : JsVal
  typeName : String
  fieldName : String
  spec : Spec
deriving DecidableEq

/-- The memoization key data of `deployAppSyncDataSourceCached`: the
params with `type`, `field`, `request` and `response` omitted
(`JSON.stringify` skips `undefined` fields, so zeroing `request` and
`response` to `undefined` matches `omit`). Structurally equal key data
yields equal SHA-256 hashes. -/
def memoKeyFields (p : TaskParams) : JsVal × JsVal × Spec :=
  (p.apiId, p.roleName, { p.spec with request := .vUndefined, response := .vUndefined })

/-- `p`-events all precede `q`-events in the trace `tr`. -/
def ordered (tr : List Event) (p q : Event → Bool) : Prop :=
  ∀ i j : Nat, i < tr.length → j < tr.length →
    p (tr.getD i .listDataSourcesCall) = true →
    q (tr.getD j .listDataSourcesCall) = true → i < j

/-- Resolver-delete issuance. -/
def Event.isDeleteResolverCall : Event → Bool
  | .deleteResolverCall _ _ => true
  | _ => false

/-- Resolver-delete settlement. -/
def Event.isDeleteResolverSettled : Event → Bool
  | .deleteResolverSettled _ _ => true
  | _ => false

/-- Data-source delete issuance. -/
def Event.isDeleteDataSourceCall : Event → Bool
  | .deleteDataSourceCall _ => true
  | _ => false

/-- Upsert settlement. -/
def Event.isUpsertSettled : Event → Bool
  | .upsertSettled _ _ => true
  | _ => false

/-- Any delete-phase issuance: a resolver delete or a data-source
delete. -/
def Event.isDeleteCall : Event → Bool
  | .deleteResolverCall _ _ => true
  | .deleteDataSourceCall _ => true
  | _ => false

/-- Data-source upsert issuance. -/
def Event.isProvisionDataSourceCall : Event → Bool
  | .provisionDataSourceCall _ _ _ => true
  | _ => false

/-- The specification's classification contract, stated from its words:
check, in fixed priority order, for the presence of a function reference,
then a table reference, then an authorization config, then a bare
endpoint, then a relational-database source-type marker; the first match
wins. Used only to compare against the source's `dataSourceKind`. -/
def specPriorityOrder : List (DSKind × (Spec → JsVal)) :=
  [(.awsLambda, Spec.lambda), (.dynamodb, Spec.table),
   (.http, Spec.authorizationConfig), (.elasticsearch, Spec.endpoint),
   (.relational, Spec.relationalDatabaseSourceType)]

/-- First kind of `specPriorityOrder` whose field is present (truthy). -/
def specClassify (s : Spec) : Option DSKind :=
  (specPriorityOrder.find? fun kf => truthy (kf.2 s)).map Prod.fst

/-- Desired state with two resolvers sharing one lambda and differing
request templates. -/
def sharedLambdaParams : Params :=
  ⟨.vStr "api", .vStr "role", .obj [("Query", .obj [
    ("a", .obj [("lambda", .vStr "fn"), ("request", .vStr "tplA")]),
    ("b", .obj [("lambda", .vStr "fn"), ("request", .vStr "tplB")])])]⟩

/-- A remote API with nothing on it. -/
def emptyRemote : RemoteState := ⟨[], [], []⟩

/-- Desired state with one HTTP-backed resolver whose explicit data-source
name contains a non-alphanumeric character. -/
def httpNamedParams : Params :=
  ⟨.vStr "api", .vStr "role", .obj [("Query", .obj [
    ("getThing", .obj [("authorizationConfig", .obj []),
      ("endpoint", .vStr "https://x"), ("name", .vStr "my-source")])])]⟩

/-- A remote API already carrying the data source `my-source`. -/
def httpNamedRemote : RemoteState := ⟨[], [], ["my-source"]⟩

/-- Desired state with one lambda-backed resolver. -/
def staleMixParams : Params :=
  ⟨.vStr "api", .vStr "role", .obj [("Query", .obj [
    ("a", .obj [("lambda", .vStr "fn")])])]⟩

/-- A remote API carrying one stale resolver `Query.old`. -/
def staleMixRemote : RemoteState := ⟨["old"], [], []⟩

/-- Params whose `resolvers.Query` is a string, failing the nested shape
check. -/
def badShapeParams : Params := ⟨.vStr "api", .vStr "role", .obj [("Query", .vStr "bad")]⟩

/-- Params whose `resolvers` is `null`. -/
def nullResolversParams : Params := ⟨.vStr "api", .vStr "role", .vNull⟩

/-- A remote API with an existing resolver `Query.getUser` and a data
source `usersFn`. -/
def nullRemote : RemoteState := ⟨["getUser"], [], ["usersFn"]⟩

/-- If no event of the trace satisfies `q`, then trivially every
`p`-event precedes every `q`-event. -/
theorem ordered_of_no_q (tr : List Event) (p q : Event → Bool)
    (h : ∀ e ∈ tr, q e = false) : ordered tr p q := by
  intro i j _ hj _ hq
  rw [List.getD_eq_getElem _ _ hj] at hq
  exact absurd hq (by simp [h _ (List.getElem_mem hj)])

/-- If `p`-events occur only in the first part of a split trace and
`q`-events only in the second, every `p`-event precedes every
`q`-event. -/
theorem ordered_split (a b : List Event) (p q : Event → Bool)
    (hpb : ∀ e ∈ b, p e = false) (hqa : ∀ e ∈ a, q e = false) :
    ordered (a ++ b) p q := by
  intro i j hi hj hp hq
  have hj2 : a.length ≤ j := by
    by_contra hlt
    push_neg at hlt
    rw [List.getD_append _ _ _ _ hlt, List.getD_eq_getElem _ _ hlt] at hq
    exact absurd hq (by simp [hqa _ (List.getElem_mem hlt)])
  have hi2 : i < a.length := by
    by_contra hge
    push_neg at hge
    rw [List.getD_append_right _ _ _ _ hge] at hp
    have hlen : i - a.length < b.length := by
      rw [List.length_append] at hi
      omega
    rw [List.getD_eq_getElem _ _ hlen] at hp
    exact absurd hp (by simp [hpb _ (List.getElem_mem hlen)])
  omega

/-- Shape of the events issued in the upsert settle window: data-source
upserts, resolver upserts and upsert settlements only. -/
theorem mem_window_shape (tasks : List UpsertTask) (e : Event)
    (he : e ∈ tasks.flatMap upsertTaskEvents) :
    (∃ t f n, e = .provisionDataSourceCall t f n) ∨
      (∃ t f, e = .upsertResolverCall t f) ∨ (∃ t f, e = .upsertSettled t f) := by
  rw [List.mem_flatMap] at he
  obtain ⟨task, _, he⟩ := he
  unfold upsertTaskEvents at he
  rcases hn : deployAppSyncDataSourceName task.typeName task.fieldName task.spec with n | err
  · rw [hn] at he
    simp at he
  · rw [hn] at he
    simp at he
    rcases he with rfl | rfl | rfl
    · exact Or.inl ⟨_, _, _, rfl⟩
    · exact Or.inr (Or.inl ⟨_, _, rfl⟩)
    · exact Or.inr (Or.inr ⟨_, _, rfl⟩)

/-- The state-fetch events are not data-source deletes. -/
theorem snapshot_no_dsdel : ∀ e ∈ snapshotEvents, e.isDeleteDataSourceCall = false := by
  intro e he
  simp [snapshotEvents] at he
  rcases he with rfl | rfl | rfl <;> rfl

/-- Task-start events are not data-source deletes. -/
theorem starts_no_dsdel (tasks : List UpsertTask) :
    ∀ e ∈ tasks.map fun task => Event.upsertStart task.typeName task.fieldName,
      e.isDeleteDataSourceCall = false := by
  intro e he
  simp only [List.mem_map] at he
  obtain ⟨t, _, rfl⟩ := he
  rfl

/-- Resolver-delete issuance events are not data-source deletes. -/
theorem delcalls_no_dsdel (dels : List (String × String)) :
    ∀ e ∈ dels.map fun d => Event.deleteResolverCall d.1 d.2,
      e.isDeleteDataSourceCall = false := by
  intro e he
  simp only [List.mem_map] at he
  obtain ⟨d, _, rfl⟩ := he
  rfl

/-- Upsert-window events are not data-source deletes. -/
theorem window_no_dsdel (tasks : List UpsertTask) :
    ∀ e ∈ tasks.flatMap upsertTaskEvents, e.isDeleteDataSourceCall = false := by
  intro e he
  rcases mem_window_shape _ _ he with ⟨t, f, n, rfl⟩ | ⟨t, f, rfl⟩ | ⟨t, f, rfl⟩ <;> rfl

/-- Resolver-delete settlement events are not data-source deletes. -/
theorem delsettles_no_dsdel (dels : List (String × String)) :
    ∀ e ∈ dels.map fun d => Event.deleteResolverSettled d.1 d.2,
      e.isDeleteDataSourceCall = false := by
  intro e he
  simp only [List.mem_map] at he
  obtain ⟨d, _, rfl⟩ := he
  rfl

/-- Structure of every run trace: a prefix with no data-source delete,
followed by the data-source delete sweep. Every swept name is outside
the successfully derived keep list, and whenever the sweep is nonempty
every issued resolver delete has settled inside the prefix. -/
theorem run_sweep_split (p : Params) (remote : RemoteState) :
    ∃ a sweep : List Event,
      (deployAppSyncResolversRun p remote).1 = a ++ sweep ∧
      (∀ e ∈ a, e.isDeleteDataSourceCall = false) ∧
      (∀ e ∈ sweep, ∃ n : String, e = Event.deleteDataSourceCall n ∧
        ∃ keep : List String, getDataSourcesNames p.resolvers = Except.ok keep ∧
          n ∉ keep) ∧
      (sweep ≠ [] → ∀ t f : String, Event.deleteResolverCall t f ∈ a →
        Event.deleteResolverSettled t f ∈ a) := by
  by_cases h1 : truthy p.apiId
  case neg =>
    exact ⟨[], [], by simp [deployAppSyncResolversRun, h1], by simp, by simp, by simp⟩
  by_cases h2 : truthy p.roleName
  case neg =>
    exact ⟨[], [], by simp [deployAppSyncResolversRun, h1, h2], by simp, by simp, by simp⟩
  by_cases h3 : jsTypeof p.resolvers = "object"
  case neg =>
    exact ⟨[], [], by simp [deployAppSyncResolversRun, h1, h2, h3], by simp, by simp, by simp⟩
  rcases hcu : collectUpserts (jsForIn p.resolvers) with ⟨tasks, verr⟩
  have pre2 : ∀ e ∈ snapshotEvents ++
      (tasks.map fun task => Event.upsertStart task.typeName task.fieldName),
      e.isDeleteDataSourceCall = false := by
    intro e2 he2
    rcases List.mem_append.mp he2 with hs | hst
    · exact snapshot_no_dsdel _ hs
    · exact starts_no_dsdel _ _ hst
  cases verr with
  | some e =>
    refine ⟨_, [], ?_, pre2, by simp, by simp⟩
    simp [deployAppSyncResolversRun, h1, h2, h3, hcu]
  | none =>
    rcases hsr : staleResolvers p.resolvers remote with e | dels
    · refine ⟨_, [], ?_, pre2, by simp, by simp⟩
      simp [deployAppSyncResolversRun, h1, h2, h3, hcu, hsr]
    · have pre4 : ∀ e ∈ snapshotEvents ++
          ((tasks.map fun task => Event.upsertStart task.typeName task.fieldName) ++
          ((dels.map fun d => Event.deleteResolverCall d.1 d.2) ++
          tasks.flatMap upsertTaskEvents)),
          e.isDeleteDataSourceCall = false := by
        intro e2 he2
        rcases List.mem_append.mp he2 with hs | hr
        · exact snapshot_no_dsdel _ hs
        rcases List.mem_append.mp hr with hst | hr
        · exact starts_no_dsdel _ _ hst
        rcases List.mem_append.mp hr with hdc | hw
        · exact delcalls_no_dsdel _ _ hdc
        · exact window_no_dsdel _ _ hw
      have pre5 : ∀ e ∈ snapshotEvents ++
          ((tasks.map fun task => Event.upsertStart task.typeName task.fieldName) ++
          ((dels.map fun d => Event.deleteResolverCall d.1 d.2) ++
          (tasks.flatMap upsertTaskEvents ++
          (dels.map fun d => Event.deleteResolverSettled d.1 d.2)))),
          e.isDeleteDataSourceCall = false := by
        intro e2 he2
        rcases List.mem_append.mp he2 with hs | hr
        · exact snapshot_no_dsdel _ hs
        rcases List.mem_append.mp hr with hst | hr
        · exact starts_no_dsdel _ _ hst
        rcases List.mem_append.mp hr with hdc | hr
        · exact delcalls_no_dsdel _ _ hdc
        rcases List.mem_append.mp hr with hw | hds
        · exact window_no_dsdel _ _ hw
        · exact delsettles_no_dsdel _ _ hds
      rcases hfe : firstTaskError tasks with _ | e
      · rcases hgd : getDataSourcesNames p.resolvers with e | keep
        · refine ⟨_, [], ?_, pre5, by simp, by simp⟩
          simp [deployAppSyncResolversRun, h1, h2, h3, hcu, hsr, hfe, hgd]
        · refine ⟨snapshotEvents ++
            ((tasks.map fun task => Event.upsertStart task.typeName task.fieldName) ++
            ((dels.map fun d => Event.deleteResolverCall d.1 d.2) ++
            (tasks.flatMap upsertTaskEvents ++
            (dels.map fun d => Event.deleteResolverSettled d.1 d.2)))),
            (remote.dataSourceNames.filter fun n => !(keep.contains n)).map
              Event.deleteDataSourceCall, ?_, pre5, ?_, ?_⟩
          · simp [deployAppSyncResolversRun, h1, h2, h3, hcu, hsr, hfe, hgd]
          · intro e2 he2
            simp only [List.mem_map] at he2
            obtain ⟨n, hn, rfl⟩ := he2
            rw [List.mem_filter] at hn
            refine ⟨n, rfl, keep, by simp [hgd], ?_⟩
            simpa using hn.2
          · intro _ t f hdc
            have hmem : (t, f) ∈ dels := by
              rcases List.mem_append.mp hdc with hs | hr
              · simp [snapshotEvents] at hs
              rcases List.mem_append.mp hr with hst | hr
              · exfalso
                simp only [List.mem_map] at hst
                obtain ⟨task2, _, hbad⟩ := hst
                exact Event.noConfusion hbad
              rcases List.mem_append.mp hr with hdc2 | hr
              · simp only [List.mem_map] at hdc2
                obtain ⟨⟨d1, d2⟩, hd, hbad⟩ := hdc2
                obtain ⟨hh1, hh2⟩ := Event.deleteResolverCall.inj hbad
                subst hh1
                subst hh2
                exact hd
              rcases List.mem_append.mp hr with hw | hds
              · exfalso
                rcases mem_window_shape _ _ hw with ⟨x, y, z, hbad⟩ | ⟨x, y, hbad⟩ | ⟨x, y, hbad⟩ <;>
                  exact Event.noConfusion hbad
              · exfalso
                simp only [List.mem_map] at hds
                obtain ⟨d, _, hbad⟩ := hds
                exact Event.noConfusion hbad
            refine List.mem_append.mpr (Or.inr (List.mem_append.mpr (Or.inr
              (List.mem_append.mpr (Or.inr (List.mem_append.mpr (Or.inr ?_)))))))
            exact List.mem_map.mpr ⟨(t, f), hmem, rfl⟩
      · refine ⟨_, [], ?_, pre4, by simp, by simp⟩
        simp [deployAppSyncResolversRun, h1, h2, h3, hcu, hsr, hfe]

/-- The state-fetch events never mutate remote state. -/
theorem snapshot_not_mutating : ∀ e ∈ snapshotEvents, e.isMutating = false := by
  intro e he
  simp [snapshotEvents] at he
  rcases he with rfl | rfl | rfl <;> rfl

/-- Task-start markers are not remote calls at all, in particular not
mutating. -/
theorem starts_not_mutating (tasks : List UpsertTask) :
    ∀ e ∈ tasks.map fun task => Event.upsertStart task.typeName task.fieldName,
      e.isMutating = false := by
  intro e he
  simp only [List.mem_map] at he
  obtain ⟨t, _, rfl⟩ := he
  rfl

/-- The only failure of `getDataSourceName` on a JavaScript value is the
`TypeError` for non-strings. -/
theorem jsStripName_error (v : JsVal) (e : RunErr) (h : jsStripName v = .error e) :
    e = .typeError "replace is not a function" := by
  cases v <;> simp [jsStripName] at h <;> exact h.symm

/-- Mapping `JsVal.vStr` over an `Except` preserves errors. -/
theorem map_vstr_error (x : Except RunErr String) (e : RunErr)
    (h : x.map JsVal.vStr = .error e) : x = .error e := by
  cases x
  · simp [Except.map] at h ⊢
    exact h
  · simp [Except.map] at h

/-- `deployAppSyncDataSource` fails before its remote call only with the
string-method `TypeError` or the missing-data-source configuration
error — never with one of the explicit validation errors. -/
theorem deployAppSyncDataSourceName_error_kind (t f : String) (s : Spec) (e : RunErr)
    (h : deployAppSyncDataSourceName t f s = .error e) :
    e = .typeError "replace is not a function" ∨
      e = .config ("Please specify a data source for resolver \"" ++ t ++ "." ++ f ++ "\"") := by
  unfold deployAppSyncDataSourceName at h
  split_ifs at h
  · exact Or.inl (jsStripName_error _ _ (map_vstr_error _ _ h))
  · exact Or.inl (jsStripName_error _ _ (map_vstr_error _ _ h))
  · exact Or.inl (jsStripName_error _ _ (map_vstr_error _ _ h))
  · injection h with h2
    exact Or.inr h2.symm

/-- No upsert task rejects with a validation error. -/
theorem firstTaskError_not_validation (tasks : List UpsertTask) (m : String) :
    firstTaskError tasks ≠ some (.validation m) := by
  intro h
  obtain ⟨task, _, hf⟩ := List.exists_of_findSome?_eq_some h
  rcases hd : deployAppSyncDataSourceName task.typeName task.fieldName task.spec with e2 | v
  · rw [hd] at hf
    simp at hf
    rcases deployAppSyncDataSourceName_error_kind _ _ _ _ hd with h2 | h2 <;>
      (rw [h2] at hf; exact RunErr.noConfusion hf)
  · rw [hd] at hf
    simp at hf

/-- C5: the data-source classification of `deployAppSyncDataSource`
checks field presence in the fixed priority order function reference,
table reference, authorization config (HTTP), bare endpoint (search
index), relational source-type marker; the first match wins — in
particular a spec carrying both a lambda and a table field is classified
as function-backed — and a spec matching no kind fails with the
configuration error naming the offending `type.field` pair. -/
theorem c5_classification_priority_order :
    (∀ s : Spec, dataSourceKind s = specClassify s) ∧
    (∀ s : Spec, truthy s.lambda = true → truthy s.table = true →
      dataSourceKind s = some DSKind.awsLambda) ∧
    (∀ (s : Spec) (t f : String), dataSourceKind s = none →
      deployAppSyncDataSourceName t f s =
        Except.error (.config ("Please specify a data source for resolver \"" ++
          t ++ "." ++ f ++ "\""))) := by
  refine ⟨?_, ?_, ?_⟩
  · intro s
    unfold dataSourceKind specClassify specPriorityOrder
    split_ifs with h1 h2 h3 h4 h5 <;> simp [List.find?, h1, *]
  · intro s h1 _
    simp [dataSourceKind, h1]
  · intro s t f hk
    unfold dataSourceKind at hk
    split_ifs at hk with h1 h2 h3 h4 h5
    unfold deployAppSyncDataSourceName
    simp [h1, h2, h3, h4, h5]

/-- C5 witness: a spec with both a lambda and a table field is
function-backed, and the empty spec fails with the configuration error
naming `Query.getUser`. -/
theorem c5_classification_priority_order_witness :
    dataSourceKind { lambda := .vStr "fn", table := .vStr "tbl" } = some DSKind.awsLambda ∧
    deployAppSyncDataSourceName "Query" "getUser" {} =
      Except.error (.config "Please specify a data source for resolver \"Query.getUser\"") :=
  ⟨c5_classification_priority_order.2.1 _ (by decide) (by decide),
   by rw [c5_classification_priority_order.2.2 {} "Query" "getUser" (by decide)]; rfl⟩

/-- C6: the outer catch of `deployAppSyncResolvers` retries the whole run
(each attempt a fresh snapshot) after a pause whenever the raised error is
a `ConcurrentModificationException` whose message includes the
schema-is-being-altered conflict, with no bound on the number of retries
(any number `n` of consecutive conflicts is survived, with `n` pauses);
every non-matching error propagates immediately with zero retries, and as
long as only conflicts occur the engine is still retrying. -/
theorem c6_schema_conflict_retry_policy :
    (∀ (n : Nat) (e : AwsErr) (rest : List (Except AwsErr Unit)),
      isSchemaConflict e = true →
      deployAppSyncResolversRetry
        (List.replicate n (Except.error e) ++ Except.ok () :: rest) =
        RetryResult.done () n) ∧
    (∀ (e : AwsErr) (rest : List (Except AwsErr Unit)),
      isSchemaConflict e = false →
      deployAppSyncResolversRetry (Except.error e :: rest) = RetryResult.failed e 0) ∧
    (∀ (n : Nat) (e : AwsErr), isSchemaConflict e = true →
      deployAppSyncResolversRetry
        ((List.replicate n (Except.error e)) : List (Except AwsErr Unit)) =
        RetryResult.stillRetrying) := by
  refine ⟨?_, ?_, ?_⟩
  · intro n e rest he
    induction n with
    | zero => simp [deployAppSyncResolversRetry]
    | succ k ih =>
      rw [List.replicate_succ, List.cons_append]
      simp [deployAppSyncResolversRetry, he, ih]
  · intro e rest he
    simp [deployAppSyncResolversRetry, he]
  · intro n e he
    induction n with
    | zero => simp [deployAppSyncResolversRetry]
    | succ k ih =>
      rw [List.replicate_succ]
      simp [deployAppSyncResolversRetry, he, ih]

/-- C6 witness: three schema conflicts followed by a success complete
with three pauses; an access-denied error fails immediately with no
pause. -/
theorem c6_schema_conflict_retry_policy_witness :
    deployAppSyncResolversRetry
      (List.replicate 3
        (Except.error ⟨"ConcurrentModificationException",
          "Schema is currently being altered, please retry"⟩) ++
        Except.ok () :: []) = RetryResult.done () 3 ∧
    deployAppSyncResolversRetry
      ((Except.error ⟨"AccessDeniedException", "denied"⟩ :
        Except AwsErr Unit) :: []) =
      RetryResult.failed ⟨"AccessDeniedException", "denied"⟩ 0 :=
  ⟨c6_schema_conflict_retry_policy.1 3 _ [] (by decide),
   c6_schema_conflict_retry_policy.2.1 _ [] (by decide)⟩

/-- C7: `deployAppSyncDataSource` first attempts `updateDataSource`; a
`NotFoundException` falls back to `createDataSource`; a
`BadRequestException` from that create whose message reports the name
already exists falls back to `updateDataSource` once more (returning
whatever it yields); any other error from either call propagates. -/
theorem c7_datasource_update_create_fallback :
    (∀ (r : DSResult) (cre upd2 : Except AwsErr DSResult),
      deployAppSyncDataSourceCalls (.ok r) cre upd2 = .ok r) ∧
    (∀ (e : AwsErr) (r : DSResult) (upd2 : Except AwsErr DSResult),
      e.code = "NotFoundException" →
      deployAppSyncDataSourceCalls (.error e) (.ok r) upd2 = .ok r) ∧
    (∀ (e createError : AwsErr) (upd2 : Except AwsErr DSResult),
      e.code = "NotFoundException" → createError.code = "BadRequestException" →
      includesStr createError.message "Data source with name" = true →
      deployAppSyncDataSourceCalls (.error e) (.error createError) upd2 = upd2) ∧
    (∀ (e : AwsErr) (cre upd2 : Except AwsErr DSResult),
      e.code ≠ "NotFoundException" →
      deployAppSyncDataSourceCalls (.error e) cre upd2 = .error e) ∧
    (∀ (e createError : AwsErr) (upd2 : Except AwsErr DSResult),
      e.code = "NotFoundException" →
      (createError.code = "BadRequestException" →
        includesStr createError.message "Data source with name" = false) →
      deployAppSyncDataSourceCalls (.error e) (.error createError) upd2 =
        .error createError) := by
  refine ⟨?_, ?_, ?_, ?_, ?_⟩
  · intro r cre upd2
    rfl
  · intro e r upd2 he
    simp [deployAppSyncDataSourceCalls, he]
  · intro e createError upd2 he hc hm
    simp [deployAppSyncDataSourceCalls, he, hc, hm]
  · intro e cre upd2 he
    simp [deployAppSyncDataSourceCalls, he]
  · intro e createError upd2 he hnot
    by_cases hc : createError.code = "BadRequestException"
    · simp [deployAppSyncDataSourceCalls, he, hc, hnot hc]
    · simp [deployAppSyncDataSourceCalls, he, hc]

/-- C7 witness: a not-found update followed by a name-exists create falls
through to the second update's result; a non-matching update error
propagates. -/
theorem c7_datasource_update_create_fallback_witness :
    deployAppSyncDataSourceCalls
      (.error ⟨"NotFoundException", "no data source"⟩)
      (.error ⟨"BadRequestException", "Data source with name usersFn already exists"⟩)
      (.ok ⟨"arn:aws:x", "usersFn"⟩) = .ok ⟨"arn:aws:x", "usersFn"⟩ ∧
    deployAppSyncDataSourceCalls
      (.error ⟨"AccessDeniedException", "denied"⟩)
      (.ok ⟨"arn:aws:x", "usersFn"⟩) (.ok ⟨"arn:aws:x", "usersFn"⟩) =
      .error ⟨"AccessDeniedException", "denied"⟩ :=
  ⟨c7_datasource_update_create_fallback.2.2.1 _ _ _ (by decide) (by decide) (by decide),
   c7_datasource_update_create_fallback.2.2.2.1 _ _ _ (by decide)⟩

/-- C9: a `NotFoundException` from the remote list call makes
`listResolvers` return the empty mapping instead of failing, any other
error propagates, and the state-fetch step issues no mutating remote
call. -/
theorem c9_list_resolvers_notfound_empty :
    (∀ e : AwsErr, e.code = "NotFoundException" →
      listResolvers (.error e) = .ok []) ∧
    (∀ e : AwsErr, e.code ≠ "NotFoundException" →
      listResolvers (.error e) = .error e) ∧
    (∀ e ∈ snapshotEvents, e.isMutating = false) := by
  refine ⟨?_, ?_, snapshot_not_mutating⟩
  · intro e he
    simp [listResolvers, he]
  · intro e he
    simp [listResolvers, he]

/-- C9 witness: the not-found error yields the empty mapping, an
access-denied error propagates, and the first state-fetch call is
non-mutating. -/
theorem c9_list_resolvers_notfound_empty_witness :
    listResolvers (.error ⟨"NotFoundException", "type not found"⟩) = .ok [] ∧
    listResolvers (.error ⟨"AccessDeniedException", "denied"⟩) =
      .error ⟨"AccessDeniedException", "denied"⟩ ∧
    Event.isMutating (.listResolversCall "Query") = false :=
  ⟨c9_list_resolvers_notfound_empty.1 _ (by decide),
   c9_list_resolvers_notfound_empty.2.1 _ (by decide),
   c9_list_resolvers_notfound_empty.2.2 _ (by decide)⟩

/-- C8: in every run, every resolver-delete call and its settlement
precede every data-source delete issuance, and whenever a data-source
delete is issued every issued resolver delete has already settled within
the trace. -/
theorem c8_resolver_deletes_settle_before_datasource_deletes
    (p : Params) (remote : RemoteState) :
    ordered (deployAppSyncResolversRun p remote).1
      (fun e => e.isDeleteResolverCall || e.isDeleteResolverSettled)
      Event.isDeleteDataSourceCall ∧
    ∀ t f n : String,
      Event.deleteResolverCall t f ∈ (deployAppSyncResolversRun p remote).1 →
      Event.deleteDataSourceCall n ∈ (deployAppSyncResolversRun p remote).1 →
      Event.deleteResolverSettled t f ∈ (deployAppSyncResolversRun p remote).1 := by
  obtain ⟨a, sweep, htr, hnd, hshape, hsettle⟩ := run_sweep_split p remote
  constructor
  · rw [htr]
    refine ordered_split a sweep _ _ ?_ hnd
    intro e he
    obtain ⟨n, rfl, -⟩ := hshape e he
    rfl
  · intro t f n hdc hds
    rw [htr] at hdc hds ⊢
    have hsw : (Event.deleteDataSourceCall n) ∈ sweep := by
      rcases List.mem_append.mp hds with ha | hs
      · exact absurd (hnd _ ha) (by simp [Event.isDeleteDataSourceCall])
      · exact hs
    have hne : sweep ≠ [] := List.ne_nil_of_mem hsw
    have hina : Event.deleteResolverCall t f ∈ a := by
      rcases List.mem_append.mp hdc with ha | hs
      · exact ha
      · obtain ⟨n2, hbad, -⟩ := hshape _ hs
        exact absurd hbad (by simp)
    exact List.mem_append.mpr (Or.inl (hsettle hne t f hina))

/-- C8 witness: the ordering at a concrete run with one desired resolver,
one stale resolver and no data sources. -/
theorem c8_resolver_deletes_settle_before_datasource_deletes_witness :
    ordered (deployAppSyncResolversRun staleMixParams staleMixRemote).1
      (fun e => e.isDeleteResolverCall || e.isDeleteResolverSettled)
      Event.isDeleteDataSourceCall :=
  (c8_resolver_deletes_settle_before_datasource_deletes staleMixParams staleMixRemote).1

/-- C3 counterexample: at a run with one desired resolver and one stale
existing resolver, the stale resolver's delete is issued synchronously in
the reconciliation loop, before the upsert settles — upserts have not
fully settled when the first delete operation is issued, contradicting
the claim. -/
theorem c3_resolver_delete_issued_before_upsert_settles :
    ¬ ordered (deployAppSyncResolversRun staleMixParams staleMixRemote).1
      Event.isUpsertSettled Event.isDeleteCall := by
  intro h
  have h74 := h 7 4 (by decide) (by decide) (by decide) (by decide)
  omega

/-- C3 amended: every upsert mutating call, upsert settlement,
resolver-delete call and resolver-delete settlement precedes every
data-source delete issuance; resolver deletes, however, are issued in the
same `Promise.all` batch as the upserts and may precede upsert
settlement, so only the data-source delete sub-phase is ordered after the
upsert phase. -/
theorem c3_settles_before_datasource_deletes (p : Params) (remote : RemoteState) :
    ordered (deployAppSyncResolversRun p remote).1
      (fun e => (e.isMutating && !e.isDeleteDataSourceCall) || e.isUpsertSettled ||
        e.isDeleteResolverSettled)
      Event.isDeleteDataSourceCall := by
  obtain ⟨a, sweep, htr, hnd, hshape, -⟩ := run_sweep_split p remote
  rw [htr]
  refine ordered_split a sweep _ _ ?_ hnd
  intro e he
  obtain ⟨n, rfl, -⟩ := hshape e he
  rfl

/-- C3 amended witness: the amended ordering at the concrete
counterexample run. -/
theorem c3_settles_before_datasource_deletes_witness :
    ordered (deployAppSyncResolversRun staleMixParams staleMixRemote).1
      (fun e => (e.isMutating && !e.isDeleteDataSourceCall) || e.isUpsertSettled ||
        e.isDeleteResolverSettled)
      Event.isDeleteDataSourceCall :=
  c3_settles_before_datasource_deletes staleMixParams staleMixRemote

/-- C2 counterexample: the desired resolver `Query.getThing` provisions
its HTTP data source under the raw explicit name `my-source`, yet the
same successful run issues a delete for exactly that name, because the
keep list derives `mysource` (non-alphanumeric characters stripped) — a
data source still referenced by a desired resolver is deleted. -/
theorem c2_referenced_http_name_deleted :
    (deployAppSyncResolversRun httpNamedParams httpNamedRemote).2 = none ∧
    Event.provisionDataSourceCall "Query" "getThing" (.vStr "my-source") ∈
      (deployAppSyncResolversRun httpNamedParams httpNamedRemote).1 ∧
    Event.deleteDataSourceCall "my-source" ∈
      (deployAppSyncResolversRun httpNamedParams httpNamedRemote).1 := by
  refine ⟨by decide, by decide, by decide⟩

/-- C2 amended: the delete phase never issues a data-source delete for
any name on the derived keep list — `getDataSourceName` of the first
truthy of `name`, `lambda`, `table`, `database` per desired resolver.
For lambda- and table-backed sources the provisioned name equals that
derived name, so such referenced sources are never deleted; an explicit
HTTP/search/relational name that differs from its stripped form is not
protected (see the counterexample). -/
theorem c2_derived_keep_names_never_deleted (p : Params) (remote : RemoteState)
    (keep : List String) (n : String)
    (hk : getDataSourcesNames p.resolvers = Except.ok keep) (hn : n ∈ keep) :
    Event.deleteDataSourceCall n ∉ (deployAppSyncResolversRun p remote).1 := by
  obtain ⟨a, sweep, htr, hnd, hshape, -⟩ := run_sweep_split p remote
  rw [htr]
  intro hmem
  rcases List.mem_append.mp hmem with ha | hs
  · exact absurd (hnd _ ha) (by simp [Event.isDeleteDataSourceCall])
  · obtain ⟨n2, heq, keep2, hk2, hnot⟩ := hshape _ hs
    obtain rfl : n = n2 := Event.deleteDataSourceCall.inj heq
    rw [hk] at hk2
    obtain rfl : keep = keep2 := (Except.ok.inj hk2)
    exact hnot hn

/-- C2 amended witness: the lambda-backed data source `fn`, on the keep
list of the concrete run, is never deleted even though it exists
remotely. -/
theorem c2_derived_keep_names_never_deleted_witness :
    Event.deleteDataSourceCall "fn" ∉
      (deployAppSyncResolversRun staleMixParams ⟨[], [], ["fn"]⟩).1 :=
  c2_derived_keep_names_never_deleted staleMixParams ⟨[], [], ["fn"]⟩ ["fn"] "fn"
    (by rfl) (by decide)

/-- The per-field name derivation of `getDataSourcesNames` never fails
with a validation error. -/
theorem goFields_not_validation (l : List (String × JsVal)) (m : String) :
    getDataSourcesNames.goFields l ≠ .error (.validation m) := by
  induction l with
  | nil => simp [getDataSourcesNames.goFields]
  | cons kv rest ih =>
    obtain ⟨k, fv⟩ := kv
    intro h
    rw [getDataSourcesNames.goFields] at h
    rcases hd : derivedName (specOf fv) with e2 | n
    · rw [hd] at h
      simp only [Bind.bind, Except.bind] at h
      injection h with h2
      rw [jsStripName_error _ _ hd] at h2
      exact RunErr.noConfusion h2
    · rw [hd] at h
      simp only [Bind.bind, Except.bind, Functor.map, Except.map] at h
      rcases hg : getDataSourcesNames.goFields rest with e3 | ns
      · rw [hg] at h
        injection h with h2
        rw [h2] at hg
        exact ih hg
      · rw [hg] at h
        exact Except.noConfusion h

/-- The type loop of `getDataSourcesNames` never fails with a validation
error. -/
theorem goTypes_not_validation (l : List (String × JsVal)) (m : String) :
    getDataSourcesNames.goTypes l ≠ .error (.validation m) := by
  induction l with
  | nil => simp [getDataSourcesNames.goTypes]
  | cons kv rest ih =>
    obtain ⟨k, tv⟩ := kv
    intro h
    rw [getDataSourcesNames.goTypes] at h
    rcases hf : getDataSourcesNames.goFields (jsForIn tv) with e2 | ns
    · rw [hf] at h
      simp only [Bind.bind, Except.bind] at h
      injection h with h2
      rw [h2] at hf
      exact goFields_not_validation _ _ hf
    · rw [hf] at h
      simp only [Bind.bind, Except.bind, Functor.map, Except.map] at h
      rcases hg : getDataSourcesNames.goTypes rest with e3 | ns2
      · rw [hg] at h
        injection h with h2
        rw [h2] at hg
        exact ih hg
      · rw [hg] at h
        exact Except.noConfusion h

/-- `getDataSourcesNames` never fails with a validation error (its only
failures are string-method `TypeError`s from the name derivation). -/
theorem getDataSourcesNames_not_validation (r : JsVal) (m : String) :
    getDataSourcesNames r ≠ .error (.validation m) :=
  goTypes_not_validation _ m

/-- C4 counterexample: with `resolvers.Query` set to a string, the run
rejects with the nested-shape validation error, yet the read-only
snapshot list calls were already issued before that validation completed
— so validation of the object-of-objects-of-objects shape is not
completed before any remote call is issued. -/
theorem c4_nested_validation_after_snapshot_calls :
    (deployAppSyncResolversRun badShapeParams emptyRemote).2 =
      some (.validation "\"resolvers.Query\" must be an object.") ∧
    Event.listResolversCall "Query" ∈
      (deployAppSyncResolversRun badShapeParams emptyRemote).1 ∧
    Event.listDataSourcesCall ∈ (deployAppSyncResolversRun badShapeParams emptyRemote).1 := by
  refine ⟨by decide, by decide, by decide⟩

/-- C4 amended: the top-level `apiId`/`roleName`/`typeof resolvers`
validation is completed before any remote call is issued (a run failing
one of them issues no call at all); the nested shape validation runs
after the read-only snapshot calls, but whenever the run rejects with any
validation error, no remote mutating call has been issued. -/
theorem c4_validation_errors_preclude_mutations :
    (∀ (p : Params) (remote : RemoteState),
      (¬ truthy p.apiId = true ∨ ¬ truthy p.roleName = true ∨
        jsTypeof p.resolvers ≠ "object") →
      (deployAppSyncResolversRun p remote).1 = []) ∧
    (∀ (p : Params) (remote : RemoteState) (m : String),
      (deployAppSyncResolversRun p remote).2 = some (.validation m) →
      ∀ e ∈ (deployAppSyncResolversRun p remote).1, e.isMutating = false) := by
  constructor
  · intro p remote h
    by_cases h1 : truthy p.apiId
    case neg => simp [deployAppSyncResolversRun, h1]
    by_cases h2 : truthy p.roleName
    case neg => simp [deployAppSyncResolversRun, h1, h2]
    by_cases h3 : jsTypeof p.resolvers = "object"
    case neg => simp [deployAppSyncResolversRun, h1, h2, h3]
    rcases h with h | h | h
    · exact absurd h1 h
    · exact absurd h2 h
    · exact absurd h3 h
  · intro p remote m hv e he
    by_cases h1 : truthy p.apiId
    case neg => simp [deployAppSyncResolversRun, h1] at he
    by_cases h2 : truthy p.roleName
    case neg => simp [deployAppSyncResolversRun, h1, h2] at he
    by_cases h3 : jsTypeof p.resolvers = "object"
    case neg => simp [deployAppSyncResolversRun, h1, h2, h3] at he
    rcases hcu : collectUpserts (jsForIn p.resolvers) with ⟨tasks, verr⟩
    cases verr with
    | some e2 =>
      have hrun : (deployAppSyncResolversRun p remote).1 = snapshotEvents ++
          (tasks.map fun task => Event.upsertStart task.typeName task.fieldName) := by
        simp [deployAppSyncResolversRun, h1, h2, h3, hcu]
      rw [hrun] at he
      rcases List.mem_append.mp he with hs | hst
      · exact snapshot_not_mutating _ hs
      · exact starts_not_mutating _ _ hst
    | none =>
      rcases hsr : staleResolvers p.resolvers remote with e2 | dels
      · have hrun : (deployAppSyncResolversRun p remote).1 = snapshotEvents ++
            (tasks.map fun task => Event.upsertStart task.typeName task.fieldName) := by
          simp [deployAppSyncResolversRun, h1, h2, h3, hcu, hsr]
        rw [hrun] at he
        rcases List.mem_append.mp he with hs | hst
        · exact snapshot_not_mutating _ hs
        · exact starts_not_mutating _ _ hst
      · rcases hfe : firstTaskError tasks with _ | e2
        · rcases hgd : getDataSourcesNames p.resolvers with e2 | keep
          · have hrun : (deployAppSyncResolversRun p remote).2 = some e2 := by
              simp [deployAppSyncResolversRun, h1, h2, h3, hcu, hsr, hfe, hgd]
            rw [hrun] at hv
            obtain rfl := Option.some.inj hv
            exact absurd hgd (getDataSourcesNames_not_validation _ _)
          · have hrun : (deployAppSyncResolversRun p remote).2 = none := by
              simp [deployAppSyncResolversRun, h1, h2, h3, hcu, hsr, hfe, hgd]
            rw [hrun] at hv
            exact Option.noConfusion hv
        · have hrun : (deployAppSyncResolversRun p remote).2 = some e2 := by
            simp [deployAppSyncResolversRun, h1, h2, h3, hcu, hsr, hfe]
          rw [hrun] at hv
          obtain rfl := Option.some.inj hv
          exact absurd hfe (firstTaskError_not_validation _ _)

/-- C4 amended witness: a falsy `apiId` issues no call, and at the
nested-shape failure no mutating call was issued. -/
theorem c4_validation_errors_preclude_mutations_witness :
    (deployAppSyncResolversRun ⟨.vUndefined, .vStr "role", .vNull⟩ emptyRemote).1 = [] ∧
    Event.isMutating (.listResolversCall "Query") = false :=
  ⟨c4_validation_errors_preclude_mutations.1 ⟨.vUndefined, .vStr "role", .vNull⟩ emptyRemote
      (Or.inl (by decide)),
   c4_validation_errors_preclude_mutations.2 badShapeParams emptyRemote
      "\"resolvers.Query\" must be an object." (by decide) _ (by decide)⟩

/-- C10 counterexample: `resolvers === null` passes the `typeof` check,
but with an existing resolver `Query.getUser` on the remote API the run
rejects with a `TypeError` from `resolvers[type]` on `null` — the
existing resolver and data source are NOT scheduled for deletion. -/
theorem c10_null_resolvers_typeerror :
    deployAppSyncResolversRun nullResolversParams nullRemote =
      (snapshotEvents, some (.typeError "Cannot read properties of null (reading Query)")) ∧
    Event.deleteResolverCall "Query" "getUser" ∉
      (deployAppSyncResolversRun nullResolversParams nullRemote).1 ∧
    Event.deleteDataSourceCall "usersFn" ∉
      (deployAppSyncResolversRun nullResolversParams nullRemote).1 := by
  refine ⟨by decide, by decide, by decide⟩

/-- C10 amended: `null` resolvers pass top-level validation and no upsert
is attempted; when the remote API has no existing Query/Mutation
resolvers the run completes and deletes every existing data source, but
as soon as any existing resolver is present — Query or Mutation — the
run rejects with a `TypeError` (property access on `null`, naming the
first root type that carries an existing resolver), issuing no delete at
all. -/
theorem c10_null_resolvers_behavior :
    (∀ (apiId roleName : JsVal) (remote : RemoteState),
      truthy apiId = true → truthy roleName = true →
      remote.queryResolvers = [] → remote.mutationResolvers = [] →
      deployAppSyncResolversRun ⟨apiId, roleName, .vNull⟩ remote =
        (snapshotEvents ++ remote.dataSourceNames.map Event.deleteDataSourceCall, none)) ∧
    (∀ (apiId roleName : JsVal) (remote : RemoteState),
      truthy apiId = true → truthy roleName = true →
      (remote.queryResolvers ≠ [] ∨ remote.mutationResolvers ≠ []) →
      (deployAppSyncResolversRun ⟨apiId, roleName, .vNull⟩ remote).1 = snapshotEvents ∧
      (deployAppSyncResolversRun ⟨apiId, roleName, .vNull⟩ remote).2 =
        some (.typeError ("Cannot read properties of null (reading " ++
          (if remote.queryResolvers = [] then "Mutation" else "Query") ++ ")"))) := by
  constructor
  · intro apiId roleName remote h1 h2 hq hm
    obtain ⟨q, mu, ds⟩ := remote
    simp only at hq hm
    subst hq
    subst hm
    simp [deployAppSyncResolversRun, h1, h2, jsTypeof, jsForIn, collectUpserts,
      staleResolvers, staleFields, getDataSourcesNames, getDataSourcesNames.goTypes,
      firstTaskError, List.findSome?, Bind.bind, Except.bind, Pure.pure, Except.pure]
  · intro apiId roleName remote h1 h2 hne
    obtain ⟨q, mu, ds⟩ := remote
    simp only at hne ⊢
    cases q with
    | cons f rest =>
      constructor <;>
        simp [deployAppSyncResolversRun, h1, h2, jsTypeof, jsForIn, collectUpserts,
          staleResolvers, staleFields, jsGet, Bind.bind, Except.bind]
    | nil =>
      cases mu with
      | nil =>
        rcases hne with hne | hne <;> simp at hne
      | cons g rest =>
        constructor <;>
          simp [deployAppSyncResolversRun, h1, h2, jsTypeof, jsForIn, collectUpserts,
            staleResolvers, staleFields, jsGet, Bind.bind, Except.bind]

/-- C10 amended witness: the concrete null-resolvers run against a remote
with no resolvers and one data source deletes that data source; against a
remote with an existing Query resolver it rejects with the `TypeError`
naming `Query`; against a remote with only a Mutation resolver it rejects
with the `TypeError` naming `Mutation`. -/
theorem c10_null_resolvers_behavior_witness :
    deployAppSyncResolversRun nullResolversParams ⟨[], [], ["usersFn"]⟩ =
      (snapshotEvents ++ [Event.deleteDataSourceCall "usersFn"], none) ∧
    (deployAppSyncResolversRun nullResolversParams nullRemote).2 =
      some (.typeError "Cannot read properties of null (reading Query)") ∧
    (deployAppSyncResolversRun nullResolversParams ⟨[], ["delUser"], ["usersFn"]⟩).2 =
      some (.typeError "Cannot read properties of null (reading Mutation)") :=
  ⟨c10_null_resolvers_behavior.1 _ _ ⟨[], [], ["usersFn"]⟩ (by decide) (by decide) rfl rfl,
   (c10_null_resolvers_behavior.2 _ _ nullRemote (by decide) (by decide)
      (Or.inl (by decide))).2,
   (c10_null_resolvers_behavior.2 _ _ ⟨[], ["delUser"], ["usersFn"]⟩ (by decide) (by decide)
      (Or.inr (by decide))).2⟩

/-- C1: at a desired state with two resolvers sharing one lambda data
source (differing only in templates), the run issues two data-source
provisioning calls — one per resolver — although both share one
memoization identity (equal params after omitting type, field, request,
response): `deployAppSyncResolver` calls the unmemoized
`deployAppSyncDataSource` instead of `deployAppSyncDataSourceCached`, so
the documented deduplication never happens. -/
theorem c1_shared_lambda_two_provision_calls :
    ((deployAppSyncResolversRun sharedLambdaParams emptyRemote).1.filter
      Event.isProvisionDataSourceCall).length = 2 ∧
    (deployAppSyncResolversRun sharedLambdaParams emptyRemote).2 = none ∧
    memoKeyFields ⟨.vStr "api", .vStr "role", "Query", "a",
        specOf (.obj [("lambda", .vStr "fn"), ("request", .vStr "tplA")])⟩ =
      memoKeyFields ⟨.vStr "api", .vStr "role", "Query", "b",
        specOf (.obj [("lambda", .vStr "fn"), ("request", .vStr "tplB")])⟩ ∧
    specOf (.obj [("lambda", .vStr "fn"), ("request", .vStr "tplA")]) ≠
      specOf (.obj [("lambda", .vStr "fn"), ("request", .vStr "tplB")]) := by
  refine ⟨by decide, by decide, by decide, by decide⟩
